import Mathlib

/-!
Shallow embedding of the CHIP-8 CPU core from `src/cpu/mod.rs`.

The Rust structure `CPU` holds `registers : [u8; 16]`, `memory_position : usize`,
`memory : [u8; 0x1000]`, `stack_pointer : usize` and `stack : [u16; 16]`.
Machine integers are embedded as `Nat` with explicit `% 2^w` where the Rust
type bounds matter (`u8` reads reduce mod 256, the `as u16` cast in `call`
reduces mod 65536).  Rust panics (`panic!`, `todo!`, checked indexing, and
the debug-profile overflow check on `+=`) are embedded as `Except` errors
carrying a distinct `Fault` value.
-/

namespace Chip8

/-- Size of the memory array `[u8; 0x1000]`. -/
def MEM_SIZE : Nat := 0x1000

/-- The faults the core can raise.  Each constructor corresponds to one
distinct panic site of the Rust source: `panic!("Stack overflow")` and
`panic!("Stack underflow")` in `call`/`ret`, the `todo!("opcode {:04x}")`
arms of the dispatch, the checked indexing of the memory array in
`read_op_code`, the checked indexing of the register and stack arrays, and
the debug-profile overflow check on `+=` in `add`. -/
inductive Fault where
  | stackOverflow : Fault
  | stackUnderflow : Fault
  | unimplemented (opcode : Nat) : Fault
  | outOfBoundsFetch (index : Nat) : Fault
  | regOutOfBounds (index : Nat) : Fault
  | stackOutOfBounds (index : Nat) : Fault
  | addOverflow (register : Nat) (value : Nat) : Fault
deriving DecidableEq, Repr

/-- The processor state (`struct CPU`).  `registers` embeds `[u8; 16]` as a
list of length 16; `memory` embeds `[u8; 0x1000]` as a function read through
a bounds check; `stack` embeds `[u16; 16]`. -/
structure CPU where
  registers : List Nat
  memory_position : Nat
  memory : Nat → Nat
  stack_pointer : Nat
  stack : List Nat

/-- `CPU::new`: all registers, memory and stack zeroed, pointers at 0. -/
def CPU.new : CPU :=
  { registers := List.replicate 16 0
  , memory_position := 0
  , memory := fun _ => 0
  , stack_pointer := 0
  , stack := List.replicate 16 0 }

/-- Checked read of the memory array: `self.memory[i]`.  Indexing past the
end of `[u8; 0x1000]` panics in Rust; here it raises the distinct
out-of-bounds-fetch fault (only the fetch reads memory in this core).
`% 256` embeds the `u8` element type. -/
def readMem (cpu : CPU) (i : Nat) : Except Fault Nat :=
  if i < MEM_SIZE then .ok (cpu.memory i % 256)
  else .error (.outOfBoundsFetch i)

/-- Checked read of the register array: `self.registers[i]`.
`% 256` embeds the `u8` element type. -/
def readReg (cpu : CPU) (i : Nat) : Except Fault Nat :=
  match cpu.registers[i]? with
  | some v => .ok (v % 256)
  | none => .error (.regOutOfBounds i)

/-- Checked write of the register array: `self.registers[i] = v`. -/
def writeReg (cpu : CPU) (i : Nat) (v : Nat) : Except Fault CPU :=
  if i < cpu.registers.length then
    .ok { cpu with registers := cpu.registers.set i v }
  else .error (.regOutOfBounds i)

/-- `fn read_op_code`: read the bytes at `memory_position` and
`memory_position + 1` and combine them big-endian. -/
def read_op_code (cpu : CPU) : Except Fault Nat :=
  match readMem cpu cpu.memory_position, readMem cpu (cpu.memory_position + 1) with
  | .ok op1, .ok op2 => .ok ((op1 <<< 8) ||| op2)
  | .error e, _ => .error e
  | _, .error e => .error e

/-- `fn add_xy`: `overflowing_add` of the two operands; the wrapped sum is
written to register `x`, then the overflow bit is written to register 0xF. -/
def add_xy (cpu : CPU) (x y : Nat) : Except Fault CPU :=
  match readReg cpu x, readReg cpu y with
  | .ok arg1, .ok arg2 =>
    match writeReg cpu x ((arg1 + arg2) % 256) with
    | .ok cpu2 => writeReg cpu2 0xF (if 256 ≤ arg1 + arg2 then 1 else 0)
    | .error e => .error e
  | .error e, _ => .error e
  | _, .error e => .error e

/-- `fn call`: fault on a full stack, otherwise push the current
`memory_position` (cast `as u16`, hence `% 65536`) and jump to `mem_pos`.
When `stack_pointer` is beyond the array (impossible from `CPU::new`) the
store itself would panic, embedded as the stack index fault. -/
def call (cpu : CPU) (mem_pos : Nat) : Except Fault CPU :=
  if cpu.stack_pointer = cpu.stack.length then .error .stackOverflow
  else if cpu.stack_pointer < cpu.stack.length then
    .ok { cpu with
          stack := cpu.stack.set cpu.stack_pointer (cpu.memory_position % 65536)
        , stack_pointer := cpu.stack_pointer + 1
        , memory_position := mem_pos }
  else .error (.stackOutOfBounds cpu.stack_pointer)

/-- `fn ret`: fault on an empty stack, otherwise pop the saved program
counter (a `u16`, hence `% 65536`) into `memory_position`. -/
def ret (cpu : CPU) : Except Fault CPU :=
  if cpu.stack_pointer = 0 then .error .stackUnderflow
  else
    match cpu.stack[cpu.stack_pointer - 1]? with
    | some v =>
      .ok { cpu with stack_pointer := cpu.stack_pointer - 1
                   , memory_position := v % 65536 }
    | none => .error (.stackOutOfBounds (cpu.stack_pointer - 1))

/-- `fn jmp`: unconditionally set `memory_position := addr`. -/
def jmp (cpu : CPU) (addr : Nat) : CPU :=
  { cpu with memory_position := addr }

/-- `fn se`: skip (advance `memory_position` by 2) when
`registers[register] == nn`. -/
def se (cpu : CPU) (register nn : Nat) : Except Fault CPU :=
  match readReg cpu register with
  | .ok v =>
    .ok (if v = nn then { cpu with memory_position := cpu.memory_position + 2 }
         else cpu)
  | .error e => .error e

/-- `fn sne`: skip when `registers[register] != nn`. -/
def sne (cpu : CPU) (register nn : Nat) : Except Fault CPU :=
  match readReg cpu register with
  | .ok v =>
    .ok (if v ≠ nn then { cpu with memory_position := cpu.memory_position + 2 }
         else cpu)
  | .error e => .error e

/-- `fn ser`: skip when `registers[r1] == registers[r2]`. -/
def ser (cpu : CPU) (r1 r2 : Nat) : Except Fault CPU :=
  match readReg cpu r1, readReg cpu r2 with
  | .ok v1, .ok v2 =>
    .ok (if v1 = v2 then { cpu with memory_position := cpu.memory_position + 2 }
         else cpu)
  | .error e, _ => .error e
  | _, .error e => .error e

/-- `fn ld`: `registers[register] = nn`. -/
def ld (cpu : CPU) (register nn : Nat) : Except Fault CPU :=
  writeReg cpu register nn

/-- `fn add`: `self.registers[register] += nn`.  Rust `+=` on `u8` has no
wraparound by itself: under the debug profile (the profile the crate's own
test suite builds with) it panics on overflow, embedded here as the
distinct add-overflow fault; only a sum below 256 is written back. -/
def add (cpu : CPU) (register nn : Nat) : Except Fault CPU :=
  match readReg cpu register with
  | .ok v =>
    if v + nn < 256 then writeReg cpu register (v + nn)
    else .error (.addOverflow register nn)
  | .error e => .error e

/-- `fn or_xy`: `registers[r1] := registers[r1] | registers[r2]`. -/
def or_xy (cpu : CPU) (r1 r2 : Nat) : Except Fault CPU :=
  match readReg cpu r1, readReg cpu r2 with
  | .ok v1, .ok v2 => writeReg cpu r1 (v1 ||| v2)
  | .error e, _ => .error e
  | _, .error e => .error e

/-- `fn and_xy`: `registers[r1] := registers[r1] & registers[r2]`. -/
def and_xy (cpu : CPU) (r1 r2 : Nat) : Except Fault CPU :=
  match readReg cpu r1, readReg cpu r2 with
  | .ok v1, .ok v2 => writeReg cpu r1 (v1 &&& v2)
  | .error e, _ => .error e
  | _, .error e => .error e

/-- `fn xor_xy`: `registers[r1] := registers[r1] ^ registers[r2]`. -/
def xor_xy (cpu : CPU) (r1 r2 : Nat) : Except Fault CPU :=
  match readReg cpu r1, readReg cpu r2 with
  | .ok v1, .ok v2 => writeReg cpu r1 (v1 ^^^ v2)
  | .error e, _ => .error e
  | _, .error e => .error e

/-- Decode field `x`: `(opcode & 0x0F00) >> 8`. -/
def decodeX (opcode : Nat) : Nat := (opcode &&& 0x0F00) >>> 8

/-- Decode field `y`: `(opcode & 0x00F0) >> 4`. -/
def decodeY (opcode : Nat) : Nat := (opcode &&& 0x00F0) >>> 4

/-- Outcome of one loop iteration that did not fault: the `0x0000` arm
returns from `run` (halt); every other arm continues the loop. -/
inductive Outcome where
  | halted (cpu : CPU) : Outcome
  | running (cpu : CPU) : Outcome

/-- The state carried by an `Outcome`. -/
def Outcome.state : Outcome → CPU
  | .halted s => s
  | .running s => s

/-- Wrap the state produced by an execution routine as a continuing loop
iteration, propagating faults. -/
def liftRun (r : Except Fault CPU) : Except Fault Outcome :=
  match r with
  | .ok c => .ok (.running c)
  | .error e => .error e

/-- The dispatch `match opcode { ... }` of `fn run`, applied to the state in
which `memory_position` has already been advanced past the fetched
instruction.  Arms appear in source order; range arms of the Rust `match`
become interval tests.  The unused `let c = opcode >> 12` of the source is
omitted. -/
def execute (opcode : Nat) (cpu : CPU) : Except Fault Outcome :=
  if opcode = 0x0000 then .ok (.halted cpu)
  else if opcode = 0x00E0 then .ok (.running cpu)
  else if opcode = 0x00EE then liftRun (ret cpu)
  else if 0x1000 ≤ opcode ∧ opcode ≤ 0x1FFF then
    .ok (.running (jmp cpu (opcode &&& 0x0FFF)))
  else if 0x2000 ≤ opcode ∧ opcode ≤ 0x2FFF then
    liftRun (call cpu (opcode &&& 0x0FFF))
  else if 0x3000 ≤ opcode ∧ opcode ≤ 0x3FFF then
    liftRun (se cpu (decodeX opcode) (opcode &&& 0x00FF))
  else if 0x4000 ≤ opcode ∧ opcode ≤ 0x4FFF then
    liftRun (sne cpu (decodeX opcode) (opcode &&& 0x00FF))
  else if 0x5000 ≤ opcode ∧ opcode ≤ 0x5FFF then
    liftRun (ser cpu (decodeX opcode) (decodeY opcode))
  else if 0x6000 ≤ opcode ∧ opcode ≤ 0x6FFF then
    liftRun (ld cpu (decodeX opcode) (opcode &&& 0x00FF))
  else if 0x7000 ≤ opcode ∧ opcode ≤ 0x7FFF then
    liftRun (add cpu (decodeX opcode) (opcode &&& 0x00FF))
  else if 0x8000 ≤ opcode ∧ opcode ≤ 0x8FFF then
    if opcode &&& 0x000F = 0 then
      liftRun (match readReg cpu (decodeY opcode) with
       | .ok v => ld cpu (decodeX opcode) v
       | .error e => .error e)
    else if opcode &&& 0x000F = 1 then liftRun (or_xy cpu (decodeX opcode) (decodeY opcode))
    else if opcode &&& 0x000F = 2 then liftRun (and_xy cpu (decodeX opcode) (decodeY opcode))
    else if opcode &&& 0x000F = 3 then liftRun (xor_xy cpu (decodeX opcode) (decodeY opcode))
    else if opcode &&& 0x000F = 4 then liftRun (add_xy cpu (decodeX opcode) (decodeY opcode))
    else .error (.unimplemented opcode)
  else .error (.unimplemented opcode)

/-- One iteration of the loop in `fn run`: fetch, advance the program
counter by 2, then dispatch. -/
def step (cpu : CPU) : Except Fault Outcome :=
  match read_op_code cpu with
  | .ok opcode => execute opcode { cpu with memory_position := cpu.memory_position + 2 }
  | .error e => .error e

/-- How a bounded run ended: clean halt via `0x0000`, a fault (Rust panic),
or the step budget ran out with the loop still going. -/
inductive Status where
  | halted : Status
  | faulted (f : Fault) : Status
  | outOfFuel : Status
deriving DecidableEq, Repr

/-- The loop of `fn run`, bounded by a step budget (the Rust loop has no
intrinsic bound).  Returns how the run ended together with the last state:
the halt state, the state at which the faulting step was entered, or the
state after `fuel` iterations. -/
def runLoop : Nat → CPU → Status × CPU
  | 0, s => (.outOfFuel, s)
  | fuel + 1, s =>
    match step s with
    | .error f => (.faulted f, s)
    | .ok (.halted s1) => (.halted, s1)
    | .ok (.running s1) => runLoop fuel s1

/-- The fault carried by a step result, if any. -/
def faultOf (r : Except Fault Outcome) : Option Fault :=
  match r with
  | .error f => some f
  | .ok _ => none

/-- The program counter of the state carried by a non-faulting step result. -/
def pcOf (r : Except Fault Outcome) : Option Nat :=
  match r with
  | .ok o => some o.state.memory_position
  | .error _ => none

/-- The register file of the state carried by a non-faulting step result. -/
def regsOf (r : Except Fault Outcome) : Option (List Nat) :=
  match r with
  | .ok o => some o.state.registers
  | .error _ => none


/-! ## Basic lemmas about the checked array accesses -/

theorem readReg_ok (cpu : CPU) (i : Nat) (h : i < cpu.registers.length) :
    readReg cpu i = .ok (cpu.registers.getD i 0 % 256) := by
  simp [readReg, List.getElem?_eq_getElem h, List.getD_eq_getElem?_getD]

theorem writeReg_ok (cpu : CPU) (i v : Nat) (h : i < cpu.registers.length) :
    writeReg cpu i v = .ok { cpu with registers := cpu.registers.set i v } := by
  simp [writeReg, h]

theorem liftRun_ok (r : Except Fault CPU) (c : CPU) (h : r = .ok c) :
    liftRun r = .ok (.running c) := by rw [h]; rfl

theorem liftRun_error (r : Except Fault CPU) (f : Fault) (h : r = .error f) :
    liftRun r = .error f := by rw [h]; rfl

/-! ## Equations for the execution routines under in-bounds indices -/

theorem ld_eq (cpu : CPU) (r nn : Nat) (h : r < cpu.registers.length) :
    ld cpu r nn = .ok { cpu with registers := cpu.registers.set r nn } :=
  writeReg_ok cpu r nn h

theorem se_eq (cpu : CPU) (r nn : Nat) (h : r < cpu.registers.length) :
    se cpu r nn =
      .ok (if cpu.registers.getD r 0 % 256 = nn then
            { cpu with memory_position := cpu.memory_position + 2 }
          else cpu) := by
  unfold se
  rw [readReg_ok cpu r h]

theorem sne_eq (cpu : CPU) (r nn : Nat) (h : r < cpu.registers.length) :
    sne cpu r nn =
      .ok (if cpu.registers.getD r 0 % 256 ≠ nn then
            { cpu with memory_position := cpu.memory_position + 2 }
          else cpu) := by
  unfold sne
  rw [readReg_ok cpu r h]

theorem ser_eq (cpu : CPU) (r1 r2 : Nat) (h1 : r1 < cpu.registers.length)
    (h2 : r2 < cpu.registers.length) :
    ser cpu r1 r2 =
      .ok (if cpu.registers.getD r1 0 % 256 = cpu.registers.getD r2 0 % 256 then
            { cpu with memory_position := cpu.memory_position + 2 }
          else cpu) := by
  unfold ser
  rw [readReg_ok cpu r1 h1, readReg_ok cpu r2 h2]

theorem add_eq (cpu : CPU) (r nn : Nat) (h : r < cpu.registers.length) :
    add cpu r nn =
      if cpu.registers.getD r 0 % 256 + nn < 256 then
        .ok { cpu with registers := cpu.registers.set r (cpu.registers.getD r 0 % 256 + nn) }
      else .error (.addOverflow r nn) := by
  unfold add
  rw [readReg_ok cpu r h]
  show (if cpu.registers.getD r 0 % 256 + nn < 256 then writeReg cpu r (cpu.registers.getD r 0 % 256 + nn)
        else .error (.addOverflow r nn)) = _
  by_cases hc : cpu.registers.getD r 0 % 256 + nn < 256
  · rw [if_pos hc, if_pos hc, writeReg_ok cpu r _ h]
  · rw [if_neg hc, if_neg hc]

theorem or_xy_eq (cpu : CPU) (r1 r2 : Nat) (h1 : r1 < cpu.registers.length)
    (h2 : r2 < cpu.registers.length) :
    or_xy cpu r1 r2 =
      .ok { cpu with registers :=
              cpu.registers.set r1 (cpu.registers.getD r1 0 % 256 ||| cpu.registers.getD r2 0 % 256) } := by
  unfold or_xy
  rw [readReg_ok cpu r1 h1, readReg_ok cpu r2 h2]
  exact writeReg_ok cpu r1 _ h1

theorem and_xy_eq (cpu : CPU) (r1 r2 : Nat) (h1 : r1 < cpu.registers.length)
    (h2 : r2 < cpu.registers.length) :
    and_xy cpu r1 r2 =
      .ok { cpu with registers :=
              cpu.registers.set r1 (cpu.registers.getD r1 0 % 256 &&& cpu.registers.getD r2 0 % 256) } := by
  unfold and_xy
  rw [readReg_ok cpu r1 h1, readReg_ok cpu r2 h2]
  exact writeReg_ok cpu r1 _ h1

theorem xor_xy_eq (cpu : CPU) (r1 r2 : Nat) (h1 : r1 < cpu.registers.length)
    (h2 : r2 < cpu.registers.length) :
    xor_xy cpu r1 r2 =
      .ok { cpu with registers :=
              cpu.registers.set r1 (cpu.registers.getD r1 0 % 256 ^^^ cpu.registers.getD r2 0 % 256) } := by
  unfold xor_xy
  rw [readReg_ok cpu r1 h1, readReg_ok cpu r2 h2]
  exact writeReg_ok cpu r1 _ h1

theorem add_xy_eq (cpu : CPU) (x y : Nat) (hx : x < cpu.registers.length)
    (hy : y < cpu.registers.length) (hF : 0xF < cpu.registers.length) :
    add_xy cpu x y =
      .ok { cpu with
            registers := List.set
              (cpu.registers.set x ((cpu.registers.getD x 0 % 256 + cpu.registers.getD y 0 % 256) % 256)) 0xF
              (if 256 ≤ cpu.registers.getD x 0 % 256 + cpu.registers.getD y 0 % 256 then 1 else 0) } := by
  unfold add_xy
  rw [readReg_ok cpu x hx, readReg_ok cpu y hy]
  show (match writeReg cpu x ((cpu.registers.getD x 0 % 256 + cpu.registers.getD y 0 % 256) % 256) with
        | Except.ok cpu2 => writeReg cpu2 0xF
            (if 256 ≤ cpu.registers.getD x 0 % 256 + cpu.registers.getD y 0 % 256 then 1 else 0)
        | Except.error e => Except.error e) = _
  rw [writeReg_ok cpu x _ hx]
  show writeReg
      { cpu with registers := cpu.registers.set x ((cpu.registers.getD x 0 % 256 + cpu.registers.getD y 0 % 256) % 256) }
      0xF (if 256 ≤ cpu.registers.getD x 0 % 256 + cpu.registers.getD y 0 % 256 then 1 else 0) = _
  rw [writeReg_ok _ 0xF _ (by simpa using hF)]

theorem call_eq (cpu : CPU) (a : Nat) (h : cpu.stack_pointer < cpu.stack.length) :
    call cpu a =
      .ok { cpu with
            stack := cpu.stack.set cpu.stack_pointer (cpu.memory_position % 65536)
          , stack_pointer := cpu.stack_pointer + 1
          , memory_position := a } := by
  unfold call
  rw [if_neg (Nat.ne_of_lt h), if_pos h]

theorem call_full (cpu : CPU) (a : Nat) (h : cpu.stack_pointer = cpu.stack.length) :
    call cpu a = .error .stackOverflow := by
  unfold call
  rw [if_pos h]

theorem ret_eq (cpu : CPU) (h0 : cpu.stack_pointer ≠ 0)
    (h1 : cpu.stack_pointer - 1 < cpu.stack.length) :
    ret cpu =
      .ok { cpu with stack_pointer := cpu.stack_pointer - 1
                   , memory_position := cpu.stack.getD (cpu.stack_pointer - 1) 0 % 65536 } := by
  unfold ret
  rw [if_neg h0, List.getElem?_eq_getElem h1]
  rw [show cpu.stack[cpu.stack_pointer - 1] = cpu.stack.getD (cpu.stack_pointer - 1) 0 from by
    rw [List.getD_eq_getElem?_getD, List.getElem?_eq_getElem h1]
    rfl]

theorem ret_empty (cpu : CPU) (h : cpu.stack_pointer = 0) :
    ret cpu = .error .stackUnderflow := by
  unfold ret
  rw [if_pos h]

/-! ## Fetch lemmas -/

theorem read_op_code_eq (cpu : CPU) (h : cpu.memory_position + 1 < MEM_SIZE) :
    read_op_code cpu =
      .ok ((cpu.memory cpu.memory_position % 256) <<< 8 |||
           cpu.memory (cpu.memory_position + 1) % 256) := by
  unfold read_op_code readMem
  rw [if_pos (by omega : cpu.memory_position < MEM_SIZE), if_pos h]

theorem read_op_code_oob (cpu : CPU) (h : MEM_SIZE ≤ cpu.memory_position + 1) :
    read_op_code cpu =
      .error (.outOfBoundsFetch
        (if cpu.memory_position < MEM_SIZE then cpu.memory_position + 1
         else cpu.memory_position)) := by
  unfold read_op_code readMem
  by_cases hp : cpu.memory_position < MEM_SIZE
  · rw [if_pos hp, if_neg (by omega : ¬ cpu.memory_position + 1 < MEM_SIZE), if_pos hp]
  · rw [if_neg hp, if_neg hp]
    rw [if_neg (by omega : ¬ cpu.memory_position + 1 < MEM_SIZE)]

theorem step_eq (cpu : CPU) (h : cpu.memory_position + 1 < MEM_SIZE) :
    step cpu =
      execute ((cpu.memory cpu.memory_position % 256) <<< 8 |||
               cpu.memory (cpu.memory_position + 1) % 256)
        { cpu with memory_position := cpu.memory_position + 2 } := by
  unfold step
  rw [read_op_code_eq cpu h]

theorem step_oob (cpu : CPU) (h : MEM_SIZE ≤ cpu.memory_position + 1) :
    step cpu =
      .error (.outOfBoundsFetch
        (if cpu.memory_position < MEM_SIZE then cpu.memory_position + 1
         else cpu.memory_position)) := by
  unfold step
  rw [read_op_code_oob cpu h]

/-! ## Decode bounds -/

theorem decodeX_lt (w : Nat) : decodeX w < 16 := by
  unfold decodeX
  rw [Nat.shiftRight_eq_div_pow]
  have h : w &&& 0xF00 ≤ 0xF00 := Nat.and_le_right
  have h2 : (w &&& 0xF00) / 2 ^ 8 ≤ 0xF00 / 2 ^ 8 := Nat.div_le_div_right h
  norm_num at h2 ⊢
  omega

theorem decodeY_lt (w : Nat) : decodeY w < 16 := by
  unfold decodeY
  rw [Nat.shiftRight_eq_div_pow]
  have h : w &&& 0xF0 ≤ 0xF0 := Nat.and_le_right
  have h2 : (w &&& 0xF0) / 2 ^ 4 ≤ 0xF0 / 2 ^ 4 := Nat.div_le_div_right h
  norm_num at h2 ⊢
  omega

/-! ## Dispatch selection lemmas: which arm of `execute` fires for which
instruction word -/

theorem execute_jmp_eq (w : Nat) (s : CPU) (h1 : 0x1000 ≤ w) (h2 : w ≤ 0x1FFF) :
    execute w s = .ok (.running (jmp s (w &&& 0x0FFF))) := by
  unfold execute
  rw [if_neg (by omega : ¬ w = 0x0000),
      if_neg (by omega : ¬ w = 0x00E0),
      if_neg (by omega : ¬ w = 0x00EE),
      if_pos (by omega : 0x1000 ≤ w ∧ w ≤ 0x1FFF)]

theorem execute_call_eq (w : Nat) (s : CPU) (h1 : 0x2000 ≤ w) (h2 : w ≤ 0x2FFF) :
    execute w s = liftRun (call s (w &&& 0x0FFF)) := by
  unfold execute
  rw [if_neg (by omega : ¬ w = 0x0000),
      if_neg (by omega : ¬ w = 0x00E0),
      if_neg (by omega : ¬ w = 0x00EE),
      if_neg (by omega : ¬ (0x1000 ≤ w ∧ w ≤ 0x1FFF)),
      if_pos (by omega : 0x2000 ≤ w ∧ w ≤ 0x2FFF)]

theorem execute_se_eq (w : Nat) (s : CPU) (h1 : 0x3000 ≤ w) (h2 : w ≤ 0x3FFF) :
    execute w s = liftRun (se s (decodeX w) (w &&& 0x00FF)) := by
  unfold execute
  rw [if_neg (by omega : ¬ w = 0x0000),
      if_neg (by omega : ¬ w = 0x00E0),
      if_neg (by omega : ¬ w = 0x00EE),
      if_neg (by omega : ¬ (0x1000 ≤ w ∧ w ≤ 0x1FFF)),
      if_neg (by omega : ¬ (0x2000 ≤ w ∧ w ≤ 0x2FFF)),
      if_pos (by omega : 0x3000 ≤ w ∧ w ≤ 0x3FFF)]

theorem execute_sne_eq (w : Nat) (s : CPU) (h1 : 0x4000 ≤ w) (h2 : w ≤ 0x4FFF) :
    execute w s = liftRun (sne s (decodeX w) (w &&& 0x00FF)) := by
  unfold execute
  rw [if_neg (by omega : ¬ w = 0x0000),
      if_neg (by omega : ¬ w = 0x00E0),
      if_neg (by omega : ¬ w = 0x00EE),
      if_neg (by omega : ¬ (0x1000 ≤ w ∧ w ≤ 0x1FFF)),
      if_neg (by omega : ¬ (0x2000 ≤ w ∧ w ≤ 0x2FFF)),
      if_neg (by omega : ¬ (0x3000 ≤ w ∧ w ≤ 0x3FFF)),
      if_pos (by omega : 0x4000 ≤ w ∧ w ≤ 0x4FFF)]

theorem execute_ser_eq (w : Nat) (s : CPU) (h1 : 0x5000 ≤ w) (h2 : w ≤ 0x5FFF) :
    execute w s = liftRun (ser s (decodeX w) (decodeY w)) := by
  unfold execute
  rw [if_neg (by omega : ¬ w = 0x0000),
      if_neg (by omega : ¬ w = 0x00E0),
      if_neg (by omega : ¬ w = 0x00EE),
      if_neg (by omega : ¬ (0x1000 ≤ w ∧ w ≤ 0x1FFF)),
      if_neg (by omega : ¬ (0x2000 ≤ w ∧ w ≤ 0x2FFF)),
      if_neg (by omega : ¬ (0x3000 ≤ w ∧ w ≤ 0x3FFF)),
      if_neg (by omega : ¬ (0x4000 ≤ w ∧ w ≤ 0x4FFF)),
      if_pos (by omega : 0x5000 ≤ w ∧ w ≤ 0x5FFF)]

theorem execute_ld_eq (w : Nat) (s : CPU) (h1 : 0x6000 ≤ w) (h2 : w ≤ 0x6FFF) :
    execute w s = liftRun (ld s (decodeX w) (w &&& 0x00FF)) := by
  unfold execute
  rw [if_neg (by omega : ¬ w = 0x0000),
      if_neg (by omega : ¬ w = 0x00E0),
      if_neg (by omega : ¬ w = 0x00EE),
      if_neg (by omega : ¬ (0x1000 ≤ w ∧ w ≤ 0x1FFF)),
      if_neg (by omega : ¬ (0x2000 ≤ w ∧ w ≤ 0x2FFF)),
      if_neg (by omega : ¬ (0x3000 ≤ w ∧ w ≤ 0x3FFF)),
      if_neg (by omega : ¬ (0x4000 ≤ w ∧ w ≤ 0x4FFF)),
      if_neg (by omega : ¬ (0x5000 ≤ w ∧ w ≤ 0x5FFF)),
      if_pos (by omega : 0x6000 ≤ w ∧ w ≤ 0x6FFF)]

theorem execute_add_eq (w : Nat) (s : CPU) (h1 : 0x7000 ≤ w) (h2 : w ≤ 0x7FFF) :
    execute w s = liftRun (add s (decodeX w) (w &&& 0x00FF)) := by
  unfold execute
  rw [if_neg (by omega : ¬ w = 0x0000),
      if_neg (by omega : ¬ w = 0x00E0),
      if_neg (by omega : ¬ w = 0x00EE),
      if_neg (by omega : ¬ (0x1000 ≤ w ∧ w ≤ 0x1FFF)),
      if_neg (by omega : ¬ (0x2000 ≤ w ∧ w ≤ 0x2FFF)),
      if_neg (by omega : ¬ (0x3000 ≤ w ∧ w ≤ 0x3FFF)),
      if_neg (by omega : ¬ (0x4000 ≤ w ∧ w ≤ 0x4FFF)),
      if_neg (by omega : ¬ (0x5000 ≤ w ∧ w ≤ 0x5FFF)),
      if_neg (by omega : ¬ (0x6000 ≤ w ∧ w ≤ 0x6FFF)),
      if_pos (by omega : 0x7000 ≤ w ∧ w ≤ 0x7FFF)]

theorem execute_alu_entry (w : Nat) (s : CPU) (h1 : 0x8000 ≤ w) (h2 : w ≤ 0x8FFF) :
    execute w s =
      (if w &&& 0x000F = 0 then
        liftRun (match readReg s (decodeY w) with
          | .ok v => ld s (decodeX w) v
          | .error e => .error e)
      else if w &&& 0x000F = 1 then liftRun (or_xy s (decodeX w) (decodeY w))
      else if w &&& 0x000F = 2 then liftRun (and_xy s (decodeX w) (decodeY w))
      else if w &&& 0x000F = 3 then liftRun (xor_xy s (decodeX w) (decodeY w))
      else if w &&& 0x000F = 4 then liftRun (add_xy s (decodeX w) (decodeY w))
      else .error (.unimplemented w)) := by
  unfold execute
  rw [if_neg (by omega : ¬ w = 0x0000),
      if_neg (by omega : ¬ w = 0x00E0),
      if_neg (by omega : ¬ w = 0x00EE),
      if_neg (by omega : ¬ (0x1000 ≤ w ∧ w ≤ 0x1FFF)),
      if_neg (by omega : ¬ (0x2000 ≤ w ∧ w ≤ 0x2FFF)),
      if_neg (by omega : ¬ (0x3000 ≤ w ∧ w ≤ 0x3FFF)),
      if_neg (by omega : ¬ (0x4000 ≤ w ∧ w ≤ 0x4FFF)),
      if_neg (by omega : ¬ (0x5000 ≤ w ∧ w ≤ 0x5FFF)),
      if_neg (by omega : ¬ (0x6000 ≤ w ∧ w ≤ 0x6FFF)),
      if_neg (by omega : ¬ (0x7000 ≤ w ∧ w ≤ 0x7FFF)),
      if_pos (by omega : 0x8000 ≤ w ∧ w ≤ 0x8FFF)]

theorem execute_unimpl_low (w : Nat) (s : CPU) (h1 : w ≤ 0x0FFF) (h2 : w ≠ 0x0000)
    (h3 : w ≠ 0x00E0) (h4 : w ≠ 0x00EE) :
    execute w s = .error (.unimplemented w) := by
  unfold execute
  rw [if_neg h2, if_neg h3, if_neg h4,
      if_neg (by omega : ¬ (0x1000 ≤ w ∧ w ≤ 0x1FFF)),
      if_neg (by omega : ¬ (0x2000 ≤ w ∧ w ≤ 0x2FFF)),
      if_neg (by omega : ¬ (0x3000 ≤ w ∧ w ≤ 0x3FFF)),
      if_neg (by omega : ¬ (0x4000 ≤ w ∧ w ≤ 0x4FFF)),
      if_neg (by omega : ¬ (0x5000 ≤ w ∧ w ≤ 0x5FFF)),
      if_neg (by omega : ¬ (0x6000 ≤ w ∧ w ≤ 0x6FFF)),
      if_neg (by omega : ¬ (0x7000 ≤ w ∧ w ≤ 0x7FFF)),
      if_neg (by omega : ¬ (0x8000 ≤ w ∧ w ≤ 0x8FFF))]

theorem execute_unimpl_high (w : Nat) (s : CPU) (h1 : 0x9000 ≤ w) :
    execute w s = .error (.unimplemented w) := by
  unfold execute
  rw [if_neg (by omega : ¬ w = 0x0000),
      if_neg (by omega : ¬ w = 0x00E0),
      if_neg (by omega : ¬ w = 0x00EE),
      if_neg (by omega : ¬ (0x1000 ≤ w ∧ w ≤ 0x1FFF)),
      if_neg (by omega : ¬ (0x2000 ≤ w ∧ w ≤ 0x2FFF)),
      if_neg (by omega : ¬ (0x3000 ≤ w ∧ w ≤ 0x3FFF)),
      if_neg (by omega : ¬ (0x4000 ≤ w ∧ w ≤ 0x4FFF)),
      if_neg (by omega : ¬ (0x5000 ≤ w ∧ w ≤ 0x5FFF)),
      if_neg (by omega : ¬ (0x6000 ≤ w ∧ w ≤ 0x6FFF)),
      if_neg (by omega : ¬ (0x7000 ≤ w ∧ w ≤ 0x7FFF)),
      if_neg (by omega : ¬ (0x8000 ≤ w ∧ w ≤ 0x8FFF))]

theorem execute_alu_unimpl (w : Nat) (s : CPU) (h1 : 0x8000 ≤ w) (h2 : w ≤ 0x8FFF)
    (hm : 5 ≤ w &&& 0x000F) :
    execute w s = .error (.unimplemented w) := by
  rw [execute_alu_entry w s h1 h2]
  rw [if_neg (by omega : ¬ w &&& 0x000F = 0), if_neg (by omega : ¬ w &&& 0x000F = 1),
      if_neg (by omega : ¬ w &&& 0x000F = 2), if_neg (by omega : ¬ w &&& 0x000F = 3),
      if_neg (by omega : ¬ w &&& 0x000F = 4)]

/-! ## Shape lemmas: classification of results of the fallible routines -/

theorem ret_shape (cpu : CPU) :
    (∃ c, ret cpu = .ok c ∧ c.memory = cpu.memory ∧ c.registers = cpu.registers) ∨
    (∃ f, ret cpu = .error f ∧ ∀ i, f ≠ .regOutOfBounds i) := by
  unfold ret
  split
  · exact Or.inr ⟨_, rfl, fun i h => Fault.noConfusion h⟩
  · split
    · exact Or.inl ⟨_, rfl, rfl, rfl⟩
    · exact Or.inr ⟨_, rfl, fun i h => Fault.noConfusion h⟩

theorem call_shape (cpu : CPU) (a : Nat) :
    (∃ c, call cpu a = .ok c ∧ c.memory = cpu.memory ∧ c.registers = cpu.registers) ∨
    (∃ f, call cpu a = .error f ∧ ∀ i, f ≠ .regOutOfBounds i) := by
  unfold call
  split
  · exact Or.inr ⟨_, rfl, fun i h => Fault.noConfusion h⟩
  · split
    · exact Or.inl ⟨_, rfl, rfl, rfl⟩
    · exact Or.inr ⟨_, rfl, fun i h => Fault.noConfusion h⟩

theorem ldreg_eq (cpu : CPU) (x y : Nat) (hx : x < cpu.registers.length)
    (hy : y < cpu.registers.length) :
    (match readReg cpu y with
      | .ok v => ld cpu x v
      | .error e => .error e) =
      .ok { cpu with registers := cpu.registers.set x (cpu.registers.getD y 0 % 256) } := by
  rw [readReg_ok cpu y hy]
  exact ld_eq cpu x _ hx

/-- Lift a CPU-level result classification through `liftRun`. -/
theorem liftRun_shape {s : CPU} {r : Except Fault CPU}
    (h : (∃ c, r = .ok c ∧ c.memory = s.memory ∧ c.registers.length = 16) ∨
         (∃ f, r = .error f ∧ ∀ i, f ≠ .regOutOfBounds i)) :
    (∃ out, liftRun r = .ok out ∧ out.state.memory = s.memory ∧
       out.state.registers.length = 16) ∨
    (∃ f, liftRun r = .error f ∧ ∀ i, f ≠ .regOutOfBounds i) := by
  rcases h with ⟨c, hc, h1, h2⟩ | ⟨f, hf, hq⟩
  · exact Or.inl ⟨.running c, liftRun_ok r c hc, h1, h2⟩
  · exact Or.inr ⟨f, liftRun_error r f hf, hq⟩

/-- Master classification of `execute` on a well-formed register file: every
arm either produces a state with the same memory and a 16-entry register
file, or faults, and the fault is never an out-of-bounds register access. -/
theorem execute_shape (w : Nat) (s : CPU) (hlen : s.registers.length = 16) :
    (∃ out, execute w s = .ok out ∧ out.state.memory = s.memory ∧
       out.state.registers.length = 16) ∨
    (∃ f, execute w s = .error f ∧ ∀ i, f ≠ .regOutOfBounds i) := by
  have hx : decodeX w < s.registers.length := by rw [hlen]; exact decodeX_lt w
  have hy : decodeY w < s.registers.length := by rw [hlen]; exact decodeY_lt w
  have hF : (0xF : Nat) < s.registers.length := by omega
  by_cases h0 : w = 0x0000
  · subst h0
    exact Or.inl ⟨_, rfl, rfl, hlen⟩
  by_cases hE0 : w = 0x00E0
  · subst hE0
    exact Or.inl ⟨_, rfl, rfl, hlen⟩
  by_cases hEE : w = 0x00EE
  · subst hEE
    show _ ∨ _
    refine liftRun_shape ?_
    rcases ret_shape s with ⟨c, hc, h1, h2⟩ | hr
    · exact Or.inl ⟨c, hc, h1, by rw [h2, hlen]⟩
    · exact Or.inr hr
  by_cases hR1 : 0x1000 ≤ w ∧ w ≤ 0x1FFF
  · rw [execute_jmp_eq w s hR1.1 hR1.2]
    exact Or.inl ⟨_, rfl, rfl, hlen⟩
  by_cases hR2 : 0x2000 ≤ w ∧ w ≤ 0x2FFF
  · rw [execute_call_eq w s hR2.1 hR2.2]
    refine liftRun_shape ?_
    rcases call_shape s (w &&& 0x0FFF) with ⟨c, hc, h1, h2⟩ | hr
    · exact Or.inl ⟨c, hc, h1, by rw [h2, hlen]⟩
    · exact Or.inr hr
  by_cases hR3 : 0x3000 ≤ w ∧ w ≤ 0x3FFF
  · rw [execute_se_eq w s hR3.1 hR3.2]
    refine liftRun_shape (Or.inl ⟨_, se_eq s _ _ hx, ?_, ?_⟩)
    · split <;> rfl
    · split <;> exact hlen
  by_cases hR4 : 0x4000 ≤ w ∧ w ≤ 0x4FFF
  · rw [execute_sne_eq w s hR4.1 hR4.2]
    refine liftRun_shape (Or.inl ⟨_, sne_eq s _ _ hx, ?_, ?_⟩)
    · split <;> rfl
    · split <;> exact hlen
  by_cases hR5 : 0x5000 ≤ w ∧ w ≤ 0x5FFF
  · rw [execute_ser_eq w s hR5.1 hR5.2]
    refine liftRun_shape (Or.inl ⟨_, ser_eq s _ _ hx hy, ?_, ?_⟩)
    · split <;> rfl
    · split <;> exact hlen
  by_cases hR6 : 0x6000 ≤ w ∧ w ≤ 0x6FFF
  · rw [execute_ld_eq w s hR6.1 hR6.2]
    exact liftRun_shape (Or.inl ⟨_, ld_eq s _ _ hx, rfl, by simpa using hlen⟩)
  by_cases hR7 : 0x7000 ≤ w ∧ w ≤ 0x7FFF
  · rw [execute_add_eq w s hR7.1 hR7.2]
    refine liftRun_shape ?_
    rw [add_eq s _ _ hx]
    by_cases hc : s.registers.getD (decodeX w) 0 % 256 + (w &&& 0x00FF) < 256
    · rw [if_pos hc]
      exact Or.inl ⟨_, rfl, rfl, by simpa using hlen⟩
    · rw [if_neg hc]
      exact Or.inr ⟨_, rfl, fun i h => Fault.noConfusion h⟩
  by_cases hR8 : 0x8000 ≤ w ∧ w ≤ 0x8FFF
  · rw [execute_alu_entry w s hR8.1 hR8.2]
    by_cases hm0 : w &&& 0x000F = 0
    · rw [if_pos hm0]
      exact liftRun_shape (Or.inl ⟨_, ldreg_eq s _ _ hx hy, rfl, by simpa using hlen⟩)
    rw [if_neg hm0]
    by_cases hm1 : w &&& 0x000F = 1
    · rw [if_pos hm1]
      exact liftRun_shape (Or.inl ⟨_, or_xy_eq s _ _ hx hy, rfl, by simpa using hlen⟩)
    rw [if_neg hm1]
    by_cases hm2 : w &&& 0x000F = 2
    · rw [if_pos hm2]
      exact liftRun_shape (Or.inl ⟨_, and_xy_eq s _ _ hx hy, rfl, by simpa using hlen⟩)
    rw [if_neg hm2]
    by_cases hm3 : w &&& 0x000F = 3
    · rw [if_pos hm3]
      exact liftRun_shape (Or.inl ⟨_, xor_xy_eq s _ _ hx hy, rfl, by simpa using hlen⟩)
    rw [if_neg hm3]
    by_cases hm4 : w &&& 0x000F = 4
    · rw [if_pos hm4]
      exact liftRun_shape (Or.inl ⟨_, add_xy_eq s _ _ hx hy hF, rfl, by simpa using hlen⟩)
    rw [if_neg hm4]
    exact Or.inr ⟨_, rfl, fun i h => Fault.noConfusion h⟩
  by_cases hlow : w ≤ 0x0FFF
  · rw [execute_unimpl_low w s hlow h0 hE0 hEE]
    exact Or.inr ⟨_, rfl, fun i h => Fault.noConfusion h⟩
  · rw [execute_unimpl_high w s (by omega)]
    exact Or.inr ⟨_, rfl, fun i h => Fault.noConfusion h⟩

/-- Classification of one full loop iteration: the fetch can only add the
out-of-bounds-fetch fault, and the fetch-advance leaves registers and
memory untouched. -/
theorem step_shape (s : CPU) (hlen : s.registers.length = 16) :
    (∃ out, step s = .ok out ∧ out.state.memory = s.memory ∧
       out.state.registers.length = 16) ∨
    (∃ f, step s = .error f ∧ ∀ i, f ≠ .regOutOfBounds i) := by
  by_cases h : s.memory_position + 1 < MEM_SIZE
  · rw [step_eq s h]
    exact execute_shape _ _ hlen
  · rw [step_oob s (by omega)]
    exact Or.inr ⟨_, rfl, fun i hh => Fault.noConfusion hh⟩

/-- Unfolding of one loop iteration of `runLoop`. -/
theorem runLoop_succ (n : Nat) (s : CPU) :
    runLoop (n + 1) s =
      (match step s with
       | .error f => ((.faulted f : Status), s)
       | .ok (.halted s1) => (.halted, s1)
       | .ok (.running s1) => runLoop n s1) := rfl

/-- The run loop preserves memory and the register-file size, and never
faults with an out-of-bounds register access, from any state with a
16-entry register file. -/
theorem runLoop_invariant (fuel : Nat) (s : CPU) (hlen : s.registers.length = 16) :
    (runLoop fuel s).2.memory = s.memory ∧ (runLoop fuel s).2.registers.length = 16 ∧
    ∀ i, (runLoop fuel s).1 ≠ .faulted (.regOutOfBounds i) := by
  induction fuel generalizing s with
  | zero => exact ⟨rfl, hlen, fun i h => Status.noConfusion h⟩
  | succ n ih =>
    rw [runLoop_succ]
    rcases step_shape s hlen with ⟨out, hout, hmem, hl⟩ | ⟨f, hf, hq⟩
    · rw [hout]
      cases out with
      | halted s1 =>
        exact ⟨hmem, hl, fun i h => Status.noConfusion h⟩
      | running s1 =>
        have h2 := ih s1 hl
        exact ⟨h2.1.trans hmem, h2.2.1, h2.2.2⟩
    · rw [hf]
      refine ⟨rfl, hlen, fun i h => ?_⟩
      exact hq i (Status.faulted.inj h)

/-! ## Concrete fixtures: small program images, written into memory the way
the external loader would -/

/-- Memory image holding the bytes of `l` at addresses `0, 1, ...` and 0
elsewhere. -/
def memOfList (l : List Nat) : Nat → Nat := fun i => l.getD i 0

/-- Register 0 preset to 200, program `0x7064` (ADD.IMM: add 100 to
register 0). -/
def c1cpu : CPU :=
  { CPU.new with registers := [200, 0, 0, 0, 0, 0, 0, 0, 0, 0, 0, 0, 0, 0, 0, 0]
               , memory := memOfList [0x70, 0x64] }

/-- Registers 0 and 1 preset to 200 and 100. -/
def c3cpu : CPU :=
  { CPU.new with registers := [200, 100, 0, 0, 0, 0, 0, 0, 0, 0, 0, 0, 0, 0, 0, 0] }

/-- Program `0x2100` (CALL 0x100) at address 0, `0x00EE` (RET) at 0x100. -/
def c4cpu : CPU :=
  { CPU.new with memory := fun i => if i = 0 then 0x21 else if i = 0x101 then 0xEE else 0 }

/-- A CALL at every even address up to 0x020, each calling the next even
address: 17 nested calls with no intervening RET (the image of the
crate's stack-overflow test). -/
def mem17 : Nat → Nat := fun i =>
  if i % 2 = 0 then (if i ≤ 0x20 then 0x20 else 0)
  else (if i ≤ 0x21 then i + 1 else 0)

/-- State running the 17-nested-calls image. -/
def cpu17 : CPU := { CPU.new with memory := mem17 }

/-- Program `0x00EE` (RET) at address 0 with an empty call stack. -/
def cpuU : CPU := { CPU.new with memory := memOfList [0x00, 0xEE] }

/-- Memory holding bytes 0x12 and 0x34 at addresses 0 and 1. -/
def c6cpu : CPU := { CPU.new with memory := memOfList [0x12, 0x34] }

/-- Register 0 preset to 5, program `0x3005` (SKIP.EQ.IMM on register 0
against 5). -/
def c7cpu : CPU :=
  { CPU.new with registers := [5, 0, 0, 0, 0, 0, 0, 0, 0, 0, 0, 0, 0, 0, 0, 0]
               , memory := memOfList [0x30, 0x05] }

/-- Program counter at the last byte of memory: the second fetched byte is
out of bounds. -/
def c8cpu : CPU := { CPU.new with memory_position := 0xFFF }

/-! ## The two opcode tables compared by the unimplemented-opcode claim -/

/-- The opcode table exactly as the specification enumerates it: HALT,
RET, JMP, CALL, the three skips (SKIP.EQ.REG only with minor nibble 0),
LOAD.IMM, ADD.IMM, and the 0x8 ALU family with minor 0-4.  Stated from the
specification's words so it can be compared with the dispatch the source
implements. -/
def specOpcodeTable (w : Nat) : Prop :=
  w = 0x0000 ∨ w = 0x00EE ∨
  (0x1000 ≤ w ∧ w ≤ 0x1FFF) ∨ (0x2000 ≤ w ∧ w ≤ 0x2FFF) ∨
  (0x3000 ≤ w ∧ w ≤ 0x3FFF) ∨ (0x4000 ≤ w ∧ w ≤ 0x4FFF) ∨
  (0x5000 ≤ w ∧ w ≤ 0x5FFF ∧ w &&& 0x000F = 0) ∨
  (0x6000 ≤ w ∧ w ≤ 0x6FFF) ∨ (0x7000 ≤ w ∧ w ≤ 0x7FFF) ∨
  (0x8000 ≤ w ∧ w ≤ 0x8FFF ∧ w &&& 0x000F ≤ 4)

/-- The instruction words the dispatch of `fn run` recognizes (does not
fall into a `todo!` arm): the three exact words 0x0000, 0x00E0, 0x00EE,
the whole ranges 0x1000-0x7FFF, and the 0x8 family with minor nibble
0-4. -/
def codeOpcodeTable (w : Nat) : Prop :=
  w = 0x0000 ∨ w = 0x00E0 ∨ w = 0x00EE ∨
  (0x1000 ≤ w ∧ w ≤ 0x7FFF) ∨
  (0x8000 ≤ w ∧ w ≤ 0x8FFF ∧ w &&& 0x000F ≤ 4)

instance (w : Nat) : Decidable (specOpcodeTable w) := by
  unfold specOpcodeTable; infer_instance

instance (w : Nat) : Decidable (codeOpcodeTable w) := by
  unfold codeOpcodeTable; infer_instance

/-! ## Claim C1 -/

/-- C1 (code evaluated at the failing input): ADD.IMM `0x7064` executed
with register 0 holding 200 does not wrap to (200 + 100) mod 256 = 44;
the unchecked `+=` of `fn add` overflows `u8` and the run aborts with the
overflow panic (debug profile), embedded as the add-overflow fault. -/
theorem add_imm_overflow_panics :
    execute 0x7064 c1cpu = .error (.addOverflow 0 0x64) ∧
    (runLoop 1 c1cpu).1 = .faulted (.addOverflow 0 0x64) :=
  ⟨rfl, by decide⟩

/-! ## Claim C2 -/

/-- C2 counterexample: the instruction word 0x00E0 matches no entry of the
opcode table the claim enumerates, yet `fn run` executes it as a silent
no-op (the `/* CLEAR SCREEN */` arm): the dispatch returns the state
unchanged rather than stopping with an unimplemented-opcode fault. -/
theorem cls_silent_noop :
    ¬ specOpcodeTable 0x00E0 ∧ execute 0x00E0 CPU.new = .ok (.running CPU.new) :=
  ⟨by decide, rfl⟩

/-- C2 (amended): every instruction word outside the table the dispatch
actually implements — 0x0000, 0x00E0 (a no-op placeholder for clear
screen), 0x00EE, the full ranges 0x1000-0x7FFF, and the 0x8 family with
minor 0-4 — stops execution with the unimplemented-opcode fault carrying
the raw instruction word. -/
theorem unimplemented_opcode_faults (w : Nat) (s : CPU)
    (h : ¬ codeOpcodeTable w) :
    execute w s = .error (.unimplemented w) := by
  unfold codeOpcodeTable at h
  push_neg at h
  obtain ⟨h0, hE0, hEE, hmid, halu⟩ := h
  by_cases hlow : w ≤ 0x0FFF
  · exact execute_unimpl_low w s hlow h0 hE0 hEE
  by_cases hmid2 : w ≤ 0x7FFF
  · exact absurd (hmid (by omega)) (by omega)
  by_cases halu2 : w ≤ 0x8FFF
  · have hm : 4 < w &&& 0x000F := halu (by omega) (by omega)
    exact execute_alu_unimpl w s (by omega) (by omega) (by omega)
  · exact execute_unimpl_high w s (by omega)

/-- C2 witness: the amended theorem applied to the concrete word 0x9ABC. -/
theorem unimplemented_opcode_faults_witness :
    ¬ codeOpcodeTable 0x9ABC ∧
    execute 0x9ABC CPU.new = .error (.unimplemented 0x9ABC) :=
  ⟨by decide, unimplemented_opcode_faults 0x9ABC CPU.new (by decide)⟩

/-! ## Claim C3 -/

/-- C3: for any pre-instruction 8-bit register values a = register[x] and
b = register[y], ADD.REG (`fn add_xy`) writes the flag register 0xF with 1
exactly when a + b ≥ 256 (else 0) — this write always takes effect, also
when x = 0xF (the operands are read first) — and, whenever x ≠ 0xF, writes
(a + b) mod 256 to register x.  Memory and program counter are
untouched. -/
theorem add_reg_flag_semantics (s : CPU) (x y a b : Nat)
    (hlen : s.registers.length = 16) (hx : x < 16) (hy : y < 16)
    (ha : s.registers[x]? = some a) (hb : s.registers[y]? = some b)
    (ha2 : a < 256) (hb2 : b < 256) :
    ∃ s2, add_xy s x y = .ok s2 ∧
      s2.registers[0xF]? = some (if 256 ≤ a + b then 1 else 0) ∧
      (x ≠ 0xF → s2.registers[x]? = some ((a + b) % 256)) ∧
      s2.memory_position = s.memory_position ∧
      s2.memory = s.memory := by
  have hx2 : x < s.registers.length := by omega
  have hy2 : y < s.registers.length := by omega
  have hF : (0xF : Nat) < s.registers.length := by omega
  have hax : s.registers.getD x 0 = a := by
    rw [List.getD_eq_getElem?_getD, ha]
    rfl
  have hby : s.registers.getD y 0 = b := by
    rw [List.getD_eq_getElem?_getD, hb]
    rfl
  refine ⟨_, add_xy_eq s x y hx2 hy2 hF, ?_, ?_, rfl, rfl⟩
  · show (List.set
        (s.registers.set x ((s.registers.getD x 0 % 256 + s.registers.getD y 0 % 256) % 256)) 0xF
        (if 256 ≤ s.registers.getD x 0 % 256 + s.registers.getD y 0 % 256 then 1 else 0))[0xF]? = _
    rw [hax, hby, Nat.mod_eq_of_lt ha2, Nat.mod_eq_of_lt hb2]
    rw [List.getElem?_set_self (by simpa using hF)]
  · intro hxF
    show (List.set
        (s.registers.set x ((s.registers.getD x 0 % 256 + s.registers.getD y 0 % 256) % 256)) 0xF
        (if 256 ≤ s.registers.getD x 0 % 256 + s.registers.getD y 0 % 256 then 1 else 0))[x]? = _
    rw [hax, hby, Nat.mod_eq_of_lt ha2, Nat.mod_eq_of_lt hb2]
    rw [List.getElem?_set_ne (by omega : (0xF : Nat) ≠ x),
        List.getElem?_set_self hx2]

/-- C3 witness: registers 0 and 1 hold 200 and 100; the sum overflows, the
flag register receives 1 and register 0 receives 44. -/
theorem add_reg_flag_semantics_witness :
    ∃ s2, add_xy c3cpu 0 1 = .ok s2 ∧
      s2.registers[0xF]? = some (if 256 ≤ 200 + 100 then 1 else 0) ∧
      ((0 : Nat) ≠ 0xF → s2.registers[0]? = some ((200 + 100) % 256)) ∧
      s2.memory_position = c3cpu.memory_position ∧
      s2.memory = c3cpu.memory :=
  add_reg_flag_semantics c3cpu 0 1 200 100 (by decide) (by decide) (by decide)
    (by decide) (by decide) (by decide) (by decide)

/-! ## Claim C4 -/

/-- C4: from any state whose call stack is not full, executing a CALL
(0x2nnn) and then immediately the RET found at the called address brings
the program counter back to exactly the value it held right after the
CALL instruction's fetch-advance, i.e. execution resumes at the
instruction following the call site. -/
theorem call_ret_roundtrip (s : CPU) (w : Nat)
    (hfetch : read_op_code s = .ok w)
    (h1 : 0x2000 ≤ w) (h2 : w ≤ 0x2FFF)
    (hstk : s.stack.length = 16) (hsp : s.stack_pointer < 16)
    (hpc : s.memory_position + 2 < 65536)
    (haddr : (w &&& 0x0FFF) + 1 < MEM_SIZE)
    (hsub0 : s.memory (w &&& 0x0FFF) % 256 = 0x00)
    (hsub1 : s.memory ((w &&& 0x0FFF) + 1) % 256 = 0xEE) :
    ∃ s1 s2, step s = .ok (.running s1) ∧ step s1 = .ok (.running s2) ∧
      s2.memory_position = s.memory_position + 2 := by
  have hpush : (s.memory_position + 2) % 65536 = s.memory_position + 2 :=
    Nat.mod_eq_of_lt hpc
  have e1 : step s =
      execute w { s with memory_position := s.memory_position + 2 } := by
    unfold step
    rw [hfetch]
  have e1b : execute w { s with memory_position := s.memory_position + 2 } =
      liftRun (call { s with memory_position := s.memory_position + 2 } (w &&& 0x0FFF)) :=
    execute_call_eq w _ h1 h2
  have hspA : s.stack_pointer <
      ({ s with memory_position := s.memory_position + 2 } : CPU).stack.length := by
    show s.stack_pointer < s.stack.length
    omega
  have e1c := call_eq { s with memory_position := s.memory_position + 2 } (w &&& 0x0FFF) hspA
  set s1 : CPU :=
    { s with stack := s.stack.set s.stack_pointer (s.memory_position + 2)
           , stack_pointer := s.stack_pointer + 1
           , memory_position := w &&& 0x0FFF } with hs1def
  have hcall : step s = .ok (.running s1) := by
    rw [e1, e1b, e1c]
    show Except.ok (Outcome.running
      { s with stack := s.stack.set s.stack_pointer ((s.memory_position + 2) % 65536)
             , stack_pointer := s.stack_pointer + 1
             , memory_position := w &&& 0x0FFF }) = _
    rw [hpush]
  have e2 : read_op_code s1 = .ok 0xEE := by
    rw [read_op_code_eq s1 (by simpa using haddr)]
    show Except.ok ((s.memory (w &&& 0x0FFF) % 256) <<< 8 |||
      s.memory ((w &&& 0x0FFF) + 1) % 256) = _
    rw [hsub0, hsub1]
    rw [show (0x00 <<< 8 ||| 0xEE : Nat) = 0xEE from by decide]
  have e3 : step s1 =
      execute 0xEE { s1 with memory_position := s1.memory_position + 2 } := by
    unfold step
    rw [e2]
  have h0B : ({ s1 with memory_position := s1.memory_position + 2 } : CPU).stack_pointer ≠ 0 := by
    show s.stack_pointer + 1 ≠ 0
    omega
  have h1B : ({ s1 with memory_position := s1.memory_position + 2 } : CPU).stack_pointer - 1 <
      ({ s1 with memory_position := s1.memory_position + 2 } : CPU).stack.length := by
    show s.stack_pointer + 1 - 1 < (s.stack.set s.stack_pointer (s.memory_position + 2)).length
    rw [List.length_set]
    omega
  have hret := ret_eq { s1 with memory_position := s1.memory_position + 2 } h0B h1B
  refine ⟨s1, _, hcall, e3.trans (liftRun_ok _ _ hret), ?_⟩
  show (s.stack.set s.stack_pointer (s.memory_position + 2)).getD s.stack_pointer 0 % 65536 =
    s.memory_position + 2
  rw [List.getD_eq_getElem?_getD,
      List.getElem?_set_self (by omega : s.stack_pointer < s.stack.length)]
  exact hpush

/-- C4 witness: CALL 0x100 fetched at address 0, RET at 0x100; the program
counter comes back to 2. -/
theorem call_ret_roundtrip_witness :
    ∃ s1 s2, step c4cpu = .ok (.running s1) ∧ step s1 = .ok (.running s2) ∧
      s2.memory_position = c4cpu.memory_position + 2 :=
  call_ret_roundtrip c4cpu 0x2100 rfl (by decide) (by decide) (by decide) (by decide)
    (by decide) (by decide) (by decide) (by decide)

/-! ## Claim C5 -/

/-- C5: running the 17-nested-calls image from an empty call stack, the
first 16 iterations all complete (the budget of 16 steps runs out with no
halt and no fault) and leave the stack pointer at capacity 16; one more
step faults with the distinct stack-overflow condition.  A RET executed
with an empty call stack faults with the distinct stack-underflow
condition. -/
theorem nested_calls_overflow_and_underflow :
    (runLoop 16 cpu17).1 = .outOfFuel ∧
    (runLoop 16 cpu17).2.stack_pointer = 16 ∧
    (runLoop 17 cpu17).1 = .faulted .stackOverflow ∧
    (runLoop 1 cpuU).1 = .faulted .stackUnderflow :=
  ⟨by decide, by decide, by decide, by decide⟩

/-! ## Claim C6 -/

/-- C6: whenever the program counter and its successor are valid memory
indices, the fetch returns the big-endian combination
`memory[pc] <<< 8 ||| memory[pc+1]`, and the loop iteration passes the
dispatcher the state whose program counter has advanced by exactly 2,
before the fetched word is decoded and executed. -/
theorem fetch_big_endian_and_preadvance (s : CPU)
    (h : s.memory_position + 1 < MEM_SIZE)
    (hb0 : s.memory s.memory_position < 256)
    (hb1 : s.memory (s.memory_position + 1) < 256) :
    read_op_code s =
      .ok (s.memory s.memory_position <<< 8 ||| s.memory (s.memory_position + 1)) ∧
    step s =
      execute (s.memory s.memory_position <<< 8 ||| s.memory (s.memory_position + 1))
        { s with memory_position := s.memory_position + 2 } := by
  constructor
  · rw [read_op_code_eq s h, Nat.mod_eq_of_lt hb0, Nat.mod_eq_of_lt hb1]
  · rw [step_eq s h, Nat.mod_eq_of_lt hb0, Nat.mod_eq_of_lt hb1]

/-- C6 witness: bytes 0x12, 0x34 at addresses 0 and 1 fetch as the word
0x1234. -/
theorem fetch_big_endian_and_preadvance_witness :
    read_op_code c6cpu =
      .ok (c6cpu.memory c6cpu.memory_position <<< 8 |||
           c6cpu.memory (c6cpu.memory_position + 1)) ∧
    step c6cpu =
      execute (c6cpu.memory c6cpu.memory_position <<< 8 |||
               c6cpu.memory (c6cpu.memory_position + 1))
        { c6cpu with memory_position := c6cpu.memory_position + 2 } :=
  fetch_big_endian_and_preadvance c6cpu (by decide) (by decide) (by decide)

/-! ## Claim C8 -/

/-- C8: a fetch attempted with `pc + 1` out of bounds of the 4096-byte
memory terminates the run loop with the distinct out-of-bounds-fetch
fault carrying the offending index; the address is never wrapped. -/
theorem out_of_bounds_fetch_faults (s : CPU) (fuel : Nat)
    (h : MEM_SIZE ≤ s.memory_position + 1) (hf : 1 ≤ fuel) :
    (runLoop fuel s).1 =
      .faulted (.outOfBoundsFetch
        (if s.memory_position < MEM_SIZE then s.memory_position + 1
         else s.memory_position)) := by
  obtain ⟨n, rfl⟩ : ∃ n, fuel = n + 1 := ⟨fuel - 1, by omega⟩
  rw [runLoop_succ, step_oob s h]

/-- C8 witness: program counter at 0xFFF, so the second fetched byte sits
at the out-of-bounds index 0x1000. -/
theorem out_of_bounds_fetch_faults_witness :
    (runLoop 1 c8cpu).1 =
      .faulted (.outOfBoundsFetch
        (if c8cpu.memory_position < MEM_SIZE then c8cpu.memory_position + 1
         else c8cpu.memory_position)) :=
  out_of_bounds_fetch_faults c8cpu 1 (by decide) (by decide)

/-! ## Claim C9 -/

/-- C9: running the processor any number of steps from any state (with the
16-register file of the Rust type) leaves the entire memory array
unchanged: no implemented opcode writes memory. -/
theorem memory_read_only (fuel : Nat) (s : CPU) (hlen : s.registers.length = 16) :
    (runLoop fuel s).2.memory = s.memory :=
  (runLoop_invariant fuel s hlen).1

/-- C9 witness: five steps from the freshly constructed processor leave
memory intact. -/
theorem memory_read_only_witness :
    CPU.new.registers.length = 16 ∧ (runLoop 5 CPU.new).2.memory = CPU.new.memory :=
  ⟨by decide, memory_read_only 5 CPU.new (by decide)⟩

/-! ## Claim C10 -/

/-- C10: the decoded register indices x and y of every instruction word are
below 16, and consequently no loop iteration — and no bounded run — can
ever fault with an out-of-bounds register-file access. -/
theorem register_indices_always_in_bounds :
    (∀ w, decodeX w < 16 ∧ decodeY w < 16) ∧
    (∀ s, s.registers.length = 16 → ∀ i, step s ≠ .error (.regOutOfBounds i)) ∧
    (∀ fuel s, s.registers.length = 16 → ∀ i,
        (runLoop fuel s).1 ≠ .faulted (.regOutOfBounds i)) := by
  refine ⟨fun w => ⟨decodeX_lt w, decodeY_lt w⟩, ?_, ?_⟩
  · intro s hlen i hstep
    rcases step_shape s hlen with ⟨out, hout, h1, h2⟩ | ⟨f, hf, hq⟩
    · rw [hout] at hstep
      exact Except.noConfusion hstep
    · rw [hf] at hstep
      exact hq i (Except.error.inj hstep)
  · intro fuel s hlen i
    exact (runLoop_invariant fuel s hlen).2.2 i

/-- C10 witness: decode bound at 0x8AB4 and regOutOfBounds-freeness of a
step of the fresh processor. -/
theorem register_indices_always_in_bounds_witness :
    decodeX 0x8AB4 < 16 ∧ CPU.new.registers.length = 16 ∧
    step CPU.new ≠ .error (.regOutOfBounds 3) :=
  ⟨(register_indices_always_in_bounds.1 0x8AB4).1, by decide,
   register_indices_always_in_bounds.2.1 CPU.new (by decide) 3⟩

/-! ## Claim C7 -/

/-- C7: for a fetched SKIP.EQ.IMM (0x3xkk), SKIP.NE.IMM (0x4xkk) or
SKIP.EQ.REG (0x5xy0, and in this dispatch any 0x5xyn) instruction, the
program counter ends exactly 4 past the skip instruction's own address
when the respective condition (register[x] = kk, register[x] ≠ kk,
register[x] = register[y]) holds, and exactly 2 past it otherwise;
registers are untouched. -/
theorem skip_instructions_advance (s : CPU) (w : Nat)
    (hfetch : read_op_code s = .ok w)
    (hlen : s.registers.length = 16)
    (hval : ∀ v ∈ s.registers, v < 256) :
    ((0x3000 ≤ w ∧ w ≤ 0x3FFF) → ∃ s2, step s = .ok (.running s2) ∧
       s2.registers = s.registers ∧
       s2.memory_position = s.memory_position +
         (if s.registers.getD (decodeX w) 0 = (w &&& 0x00FF) then 4 else 2)) ∧
    ((0x4000 ≤ w ∧ w ≤ 0x4FFF) → ∃ s2, step s = .ok (.running s2) ∧
       s2.registers = s.registers ∧
       s2.memory_position = s.memory_position +
         (if s.registers.getD (decodeX w) 0 ≠ (w &&& 0x00FF) then 4 else 2)) ∧
    ((0x5000 ≤ w ∧ w ≤ 0x5FFF) → ∃ s2, step s = .ok (.running s2) ∧
       s2.registers = s.registers ∧
       s2.memory_position = s.memory_position +
         (if s.registers.getD (decodeX w) 0 = s.registers.getD (decodeY w) 0
          then 4 else 2)) := by
  have e1 : step s = execute w { s with memory_position := s.memory_position + 2 } := by
    unfold step
    rw [hfetch]
  have hreg : ∀ i, i < s.registers.length →
      s.registers.getD i 0 % 256 = s.registers.getD i 0 := by
    intro i hi
    have hmem : s.registers.getD i 0 ∈ s.registers := by
      rw [List.getD_eq_getElem?_getD, List.getElem?_eq_getElem hi]
      exact List.getElem_mem hi
    exact Nat.mod_eq_of_lt (hval _ hmem)
  have hx : decodeX w <
      ({ s with memory_position := s.memory_position + 2 } : CPU).registers.length := by
    show decodeX w < s.registers.length
    rw [hlen]
    exact decodeX_lt w
  have hy : decodeY w <
      ({ s with memory_position := s.memory_position + 2 } : CPU).registers.length := by
    show decodeY w < s.registers.length
    rw [hlen]
    exact decodeY_lt w
  refine ⟨fun hw => ?_, fun hw => ?_, fun hw => ?_⟩
  · have hse := se_eq { s with memory_position := s.memory_position + 2 }
      (decodeX w) (w &&& 0x00FF) hx
    refine ⟨if s.registers.getD (decodeX w) 0 % 256 = (w &&& 0x00FF) then
        { s with memory_position := s.memory_position + 2 + 2 }
      else { s with memory_position := s.memory_position + 2 }, ?_, ?_, ?_⟩
    · rw [e1, execute_se_eq w _ hw.1 hw.2]
      exact liftRun_ok _ _ hse
    · split <;> rfl
    · rw [hreg (decodeX w) (by rw [hlen]; exact decodeX_lt w)]
      by_cases hc : s.registers.getD (decodeX w) 0 = (w &&& 0x00FF)
      · rw [if_pos hc, if_pos hc]
      · rw [if_neg hc, if_neg hc]
  · have hsne := sne_eq { s with memory_position := s.memory_position + 2 }
      (decodeX w) (w &&& 0x00FF) hx
    refine ⟨if s.registers.getD (decodeX w) 0 % 256 ≠ (w &&& 0x00FF) then
        { s with memory_position := s.memory_position + 2 + 2 }
      else { s with memory_position := s.memory_position + 2 }, ?_, ?_, ?_⟩
    · rw [e1, execute_sne_eq w _ hw.1 hw.2]
      exact liftRun_ok _ _ hsne
    · split <;> rfl
    · rw [hreg (decodeX w) (by rw [hlen]; exact decodeX_lt w)]
      by_cases hc : s.registers.getD (decodeX w) 0 = (w &&& 0x00FF)
      · rw [if_neg (by simpa using hc), if_neg (by simpa using hc)]
      · rw [if_pos hc, if_pos hc]
  · have hser := ser_eq { s with memory_position := s.memory_position + 2 }
      (decodeX w) (decodeY w) hx hy
    refine ⟨if s.registers.getD (decodeX w) 0 % 256 = s.registers.getD (decodeY w) 0 % 256 then
        { s with memory_position := s.memory_position + 2 + 2 }
      else { s with memory_position := s.memory_position + 2 }, ?_, ?_, ?_⟩
    · rw [e1, execute_ser_eq w _ hw.1 hw.2]
      exact liftRun_ok _ _ hser
    · split <;> rfl
    · rw [hreg (decodeX w) (by rw [hlen]; exact decodeX_lt w),
          hreg (decodeY w) (by rw [hlen]; exact decodeY_lt w)]
      by_cases hc : s.registers.getD (decodeX w) 0 = s.registers.getD (decodeY w) 0
      · rw [if_pos hc, if_pos hc]
      · rw [if_neg hc, if_neg hc]

/-- C7 witness: register 0 holds 5 and the program is `0x3005`
(SKIP.EQ.IMM matching), so the program counter ends at 4. -/
theorem skip_instructions_advance_witness :
    ((0x3000 ≤ 0x3005 ∧ 0x3005 ≤ 0x3FFF) → ∃ s2, step c7cpu = .ok (.running s2) ∧
       s2.registers = c7cpu.registers ∧
       s2.memory_position = c7cpu.memory_position +
         (if c7cpu.registers.getD (decodeX 0x3005) 0 = (0x3005 &&& 0x00FF) then 4 else 2)) ∧
    ((0x4000 ≤ 0x3005 ∧ 0x3005 ≤ 0x4FFF) → ∃ s2, step c7cpu = .ok (.running s2) ∧
       s2.registers = c7cpu.registers ∧
       s2.memory_position = c7cpu.memory_position +
         (if c7cpu.registers.getD (decodeX 0x3005) 0 ≠ (0x3005 &&& 0x00FF) then 4 else 2)) ∧
    ((0x5000 ≤ 0x3005 ∧ 0x3005 ≤ 0x5FFF) → ∃ s2, step c7cpu = .ok (.running s2) ∧
       s2.registers = c7cpu.registers ∧
       s2.memory_position = c7cpu.memory_position +
         (if c7cpu.registers.getD (decodeX 0x3005) 0 = c7cpu.registers.getD (decodeY 0x3005) 0
          then 4 else 2)) :=
  skip_instructions_advance c7cpu 0x3005 rfl (by decide) (by decide)

end Chip8
